import Mathlib

/-!
Shallow embedding of the two React components of this repository:
the page-access matrix editor (manage-access-panel.tsx) and the live
page builder (live-page-editor.tsx).  Pure state transformations are
embedded as Lean functions on explicit state values; ambient effects
(the current time, the random generator, the timer queue and the React
effect loop) are passed in explicitly.
-/

/-- Roles of the user directory, the TS union type of the role field. -/
inductive Role
  | user
  | admin
  | developer
deriving DecidableEq, Repr

/-- Role filter of the access panel, the TS union type of filterRole. -/
inductive RoleFilter
  | all
  | user
  | admin
  | developer
deriving DecidableEq, Repr

/-- The filter value matching a given role, used to embed the string
comparison of user.role with filterRole in the source. -/
def Role.toFilter : Role → RoleFilter
  | .user => .user
  | .admin => .admin
  | .developer => .developer

/-- Users as read from the external directory: identity fields, a role,
and an optional list of assigned page ids. -/
structure User where
  id : String
  name : String
  username : String
  role : Role
  assignedPages : Option (List String)
deriving DecidableEq, Repr

/-- Embedding of getUserPageAccess (manage-access-panel.tsx, lines 64 to 73):
look the user up by id in the local listing; a missing user has no access;
admin and developer have access to every page; a plain user has access to
exactly the assigned pages. -/
def getUserPageAccess (users : List User) (userId pageId : String) : Bool :=
  match users.find? (fun u => u.id == userId) with
  | none => false
  | some u =>
      if u.role == Role.admin || u.role == Role.developer then true
      else (u.assignedPages.getD []).contains pageId

/-- The newPages computation inside handleToggleAccess (lines 40 to 45):
remove the page id when it is in the current list, else append it. -/
def togglePages (pages : List String) (pageId : String) : List String :=
  if pages.contains pageId then pages.filter (fun i => i != pageId)
  else pages ++ [pageId]

/-- The setUsers update inside handleToggleAccess (lines 50 to 54): replace
the assigned list of every user whose id matches. -/
def setUserPages (userId : String) (newPages : List String) (users : List User) : List User :=
  users.map (fun v => if v.id == userId then { v with assignedPages := some newPages } else v)

/-- Embedding of handleToggleAccess (manage-access-panel.tsx, lines 34 to 62)
acting on the users state: find the user by id (a missing id is a silent
no-op), compute the toggled list from the raw assigned list, and write it
back.  The external assignment call and the loading flag (set true and then
reset in the finally block) leave the users state untouched. -/
def handleToggleAccess (users : List User) (userId pageId : String) : List User :=
  match users.find? (fun u => u.id == userId) with
  | none => users
  | some u => setUserPages userId (togglePages (u.assignedPages.getD []) pageId) users

/-- The assigned list that the panel reads for a user id, exactly the
currentPages value of handleToggleAccess: the assigned list of the first
matching user, with a missing user or a missing list read as empty. -/
def pagesOf (users : List User) (userId : String) : List String :=
  match users.find? (fun u => u.id == userId) with
  | none => []
  | some u => u.assignedPages.getD []

/-- Embedding of isDisabled (manage-access-panel.tsx, line 181): toggle
buttons are disabled for admin and developer rows. -/
def isDisabled (u : User) : Bool :=
  u.role == Role.admin || u.role == Role.developer

/-- The guarded click of a matrix cell (line 186): the handler runs only
when the row is not disabled. -/
def cellToggleClick (users : List User) (u : User) (pageId : String) : List User :=
  if isDisabled u then users else handleToggleAccess users u.id pageId

/-- Containment of one character list in another: the pattern is a prefix
of some suffix of the haystack.  This is the semantics of the JS includes
method on strings. -/
def charsContain : List Char → List Char → Bool
  | [], pat => pat.isEmpty
  | hd :: tl, pat => pat.isPrefixOf (hd :: tl) || charsContain tl pat

/-- Embedding of the JS string test a.toLowerCase().includes(b.toLowerCase())
on the underlying character lists. -/
def jsIncludesLower (s pat : String) : Bool :=
  charsContain s.toLower.data pat.toLower.data

/-- The matchesSearch test of filteredUsers (lines 28 to 29). -/
def matchesSearch (u : User) (searchTerm : String) : Bool :=
  jsIncludesLower u.name searchTerm || jsIncludesLower u.username searchTerm

/-- The matchesRole test of filteredUsers (line 30). -/
def matchesRole (u : User) (filterRole : RoleFilter) : Bool :=
  filterRole == RoleFilter.all || u.role.toFilter == filterRole

/-- Embedding of filteredUsers (manage-access-panel.tsx, lines 27 to 32). -/
def filteredUsers (users : List User) (searchTerm : String) (filterRole : RoleFilter) : List User :=
  users.filter (fun u => matchesSearch u searchTerm && matchesRole u filterRole)

/-- C1: for every user as found in the listing and every page id, the
access test returns true exactly when the role is admin or developer or
the page id is a member of the assigned list. -/
theorem getUserPageAccess_characterization
    (users : List User) (u : User) (pageId : String)
    (h : users.find? (fun v => v.id == u.id) = some u) :
    getUserPageAccess users u.id pageId =
      (u.role == Role.admin || u.role == Role.developer
        || (u.assignedPages.getD []).contains pageId) := by
  unfold getUserPageAccess
  rw [h]
  by_cases hr : (u.role == Role.admin || u.role == Role.developer) = true
  · simp [hr]
  · simp only [Bool.not_eq_true] at hr
    simp [hr]

/-- Witness for C1 at a concrete listing: an admin with an empty assigned
list has access to page p1, and the characterization applies. -/
theorem getUserPageAccess_characterization_witness :
    getUserPageAccess
      [{ id := "a1", name := "Ann", username := "ann", role := Role.admin,
         assignedPages := some [] }] "a1" "p1" =
      ((Role.admin == Role.admin || Role.admin == Role.developer)
        || ((some ([] : List String)).getD []).contains "p1") :=
  getUserPageAccess_characterization
    [{ id := "a1", name := "Ann", username := "ann", role := Role.admin,
       assignedPages := some [] }]
    { id := "a1", name := "Ann", username := "ann", role := Role.admin,
      assignedPages := some [] }
    "p1" (by decide)

/-- Demo admin row used in concrete instances. -/
def annAdmin : User :=
  { id := "a1", name := "Ann", username := "ann", role := Role.admin,
    assignedPages := some [] }

/-- Demo developer row used in concrete instances. -/
def devDana : User :=
  { id := "d1", name := "Dana", username := "dana", role := Role.developer,
    assignedPages := some ["p9"] }

/-- Demo plain-user row used in concrete instances. -/
def plainPat : User :=
  { id := "u1", name := "Pat", username := "pat", role := Role.user,
    assignedPages := some ["p1"] }

/-- Rewriting the assigned lists keeps every id, so the panel lookup finds
the updated user. -/
theorem find?_setUserPages (users : List User) (uid : String) (np : List String) (u : User)
    (h : users.find? (fun v => v.id == uid) = some u) :
    (setUserPages uid np users).find? (fun v => v.id == uid) =
      some { u with assignedPages := some np } := by
  induction users with
  | nil => simp at h
  | cons v vs ih =>
      unfold setUserPages at *
      simp only [List.map_cons]
      by_cases hv : (v.id == uid) = true
      · have hfv : List.find? (fun w : User => w.id == uid) (v :: vs) = some v :=
          List.find?_cons_of_pos vs (show (fun w : User => w.id == uid) v = true from hv)
        rw [hfv] at h
        injection h with h
        subst h
        rw [if_pos hv]
        exact List.find?_cons_of_pos _
          (show (fun w : User => w.id == uid) { v with assignedPages := some np } = true from hv)
      · have hneg : ¬ (fun w : User => w.id == uid) v = true := by simpa using hv
        have hfv : List.find? (fun w : User => w.id == uid) (v :: vs)
            = List.find? (fun w : User => w.id == uid) vs :=
          List.find?_cons_of_neg vs hneg
        rw [hfv] at h
        rw [if_neg hv]
        rw [@List.find?_cons_of_neg User (fun w : User => w.id == uid) v _ hneg]
        exact ih h

/-- Unfolding of the toggle handler at a found user. -/
theorem handleToggleAccess_eq (users : List User) (u : User) (uid pid : String)
    (h : users.find? (fun v => v.id == uid) = some u) :
    handleToggleAccess users uid pid =
      setUserPages uid (togglePages (u.assignedPages.getD []) pid) users := by
  unfold handleToggleAccess
  rw [h]

/-- The assigned list the panel reads at a found user. -/
theorem pagesOf_eq (users : List User) (u : User) (uid : String)
    (h : users.find? (fun v => v.id == uid) = some u) :
    pagesOf users uid = u.assignedPages.getD [] := by
  unfold pagesOf
  rw [h]

/-- Toggling a page id twice in the list-level operation preserves
membership. -/
theorem mem_togglePages_togglePages (P : List String) (pid x : String) :
    x ∈ togglePages (togglePages P pid) pid ↔ x ∈ P := by
  by_cases hc : P.contains pid = true
  · have hpc : pid ∈ P := by simpa using hc
    have h1 : togglePages P pid = P.filter (fun i => i != pid) := by
      unfold togglePages
      rw [if_pos hc]
    have h2 : ¬ (P.filter (fun i => i != pid)).contains pid = true := by
      simp [List.mem_filter]
    have h3 : togglePages (P.filter (fun i => i != pid)) pid
        = P.filter (fun i => i != pid) ++ [pid] := by
      unfold togglePages
      rw [if_neg h2]
    rw [h1, h3]
    simp only [List.mem_append, List.mem_filter, List.mem_singleton, bne_iff_ne]
    by_cases hx : x = pid
    · subst hx
      simp [hpc]
    · simp [hx]
  · have hpc : ¬ pid ∈ P := by simpa using hc
    have h1 : togglePages P pid = P ++ [pid] := by
      unfold togglePages
      rw [if_neg hc]
    have h2 : (P ++ [pid]).contains pid = true := by simp
    have h3 : togglePages (P ++ [pid]) pid = (P ++ [pid]).filter (fun i => i != pid) := by
      unfold togglePages
      rw [if_pos h2]
    rw [h1, h3]
    simp only [List.filter_append, List.mem_append, List.mem_filter, bne_iff_ne]
    by_cases hx : x = pid
    · subst hx
      simp [hpc]
    · simp [hx]

/-- C2 counterexample: for the admin row the access test is true, yet the
toggle appends the page instead of removing it, so the page id is a member
of the assigned list afterwards. -/
theorem toggleAccess_hasAccess_mismatch :
    getUserPageAccess [annAdmin] "a1" "p1" = true ∧
      "p1" ∈ pagesOf (handleToggleAccess [annAdmin] "a1" "p1") "a1" :=
  ⟨by decide, by decide⟩

/-- C2 amended: the toggle consults membership in the raw assigned list
(which for role user coincides with the access test): a present page id is
removed, an absent one is appended at the end. -/
theorem toggleAccess_membership_toggle (users : List User) (u : User) (pid : String)
    (h : users.find? (fun v => v.id == u.id) = some u) :
    pagesOf (handleToggleAccess users u.id pid) u.id =
      (if (u.assignedPages.getD []).contains pid
       then (u.assignedPages.getD []).filter (fun i => i != pid)
       else u.assignedPages.getD [] ++ [pid]) := by
  have h1 := handleToggleAccess_eq users u u.id pid h
  have hf1 := find?_setUserPages users u.id (togglePages (u.assignedPages.getD []) pid) u h
  rw [h1, pagesOf_eq _ _ _ hf1]
  rfl

/-- Witness for C2 amended at the spec scenario: role user with assigned
list p1, toggling p2 appends, giving p1 then p2. -/
theorem toggleAccess_membership_toggle_witness :
    (pagesOf (handleToggleAccess [plainPat] plainPat.id "p2") plainPat.id =
      (if (plainPat.assignedPages.getD []).contains "p2"
       then (plainPat.assignedPages.getD []).filter (fun i => i != "p2")
       else plainPat.assignedPages.getD [] ++ ["p2"])) ∧
      pagesOf (handleToggleAccess [plainPat] plainPat.id "p2") plainPat.id = ["p1", "p2"] :=
  ⟨toggleAccess_membership_toggle [plainPat] plainPat "p2" (by decide), by decide⟩

/-- C3: toggling the same user and page twice in succession returns the
assigned list of that user to its original value as a set. -/
theorem toggleAccess_involutive_mem (users : List User) (u : User) (pid : String)
    (h : users.find? (fun v => v.id == u.id) = some u) :
    ∀ x, x ∈ pagesOf (handleToggleAccess (handleToggleAccess users u.id pid) u.id pid) u.id
      ↔ x ∈ pagesOf users u.id := by
  intro x
  have h0 : pagesOf users u.id = u.assignedPages.getD [] := pagesOf_eq users u u.id h
  have h1 : handleToggleAccess users u.id pid
      = setUserPages u.id (togglePages (u.assignedPages.getD []) pid) users :=
    handleToggleAccess_eq users u u.id pid h
  have hf1 : (handleToggleAccess users u.id pid).find? (fun v => v.id == u.id)
      = some { u with assignedPages := some (togglePages (u.assignedPages.getD []) pid) } := by
    rw [h1]
    exact find?_setUserPages users u.id _ u h
  have h2 : handleToggleAccess (handleToggleAccess users u.id pid) u.id pid
      = setUserPages u.id
          (togglePages (togglePages (u.assignedPages.getD []) pid) pid)
          (handleToggleAccess users u.id pid) :=
    handleToggleAccess_eq _ _ _ pid hf1
  have hf2 : (handleToggleAccess (handleToggleAccess users u.id pid) u.id pid).find?
        (fun v => v.id == u.id)
      = some { u with assignedPages := some (togglePages (togglePages (u.assignedPages.getD []) pid) pid) } := by
    rw [h2]
    exact find?_setUserPages _ u.id _
      { u with assignedPages := some (togglePages (u.assignedPages.getD []) pid) } hf1
  rw [pagesOf_eq _ _ _ hf2, h0]
  exact mem_togglePages_togglePages _ pid x

/-- Witness for C3 at a concrete listing: toggling p2 twice for the plain
user leaves p2 out again, matching the original list. -/
theorem toggleAccess_involutive_mem_witness :
    "p2" ∈ pagesOf
        (handleToggleAccess (handleToggleAccess [plainPat] plainPat.id "p2") plainPat.id "p2")
        plainPat.id
      ↔ "p2" ∈ pagesOf [plainPat] plainPat.id :=
  toggleAccess_involutive_mem [plainPat] plainPat "p2" (by decide) "p2"

/-- C4 counterexample: invoked directly for a developer row, the toggle
handler does change the assigned list, so the handler itself is not a
no-op for privileged roles. -/
theorem handleToggleAccess_not_noop_for_developer :
    devDana.role = Role.developer ∧
      pagesOf [devDana] "d1" = ["p9"] ∧
      pagesOf (handleToggleAccess [devDana] "d1" "p2") "d1" = ["p9", "p2"] :=
  ⟨rfl, by decide, by decide⟩

/-- C4 amended: for every admin or developer row the cell button is
disabled and the guarded click leaves the users state unchanged; the role
check lives in the UI guard, not in the handler. -/
theorem cellToggleClick_noop_for_privileged (users : List User) (u : User) (pid : String)
    (h : u.role = Role.admin ∨ u.role = Role.developer) :
    isDisabled u = true ∧ cellToggleClick users u pid = users := by
  have hd : isDisabled u = true := by
    rcases h with h | h <;> simp [isDisabled, h]
  exact ⟨hd, by simp [cellToggleClick, hd]⟩

/-- Witness for C4 amended at a concrete listing with a developer row. -/
theorem cellToggleClick_noop_for_privileged_witness :
    isDisabled devDana = true ∧
      cellToggleClick [annAdmin, devDana] devDana "p1" = [annAdmin, devDana] :=
  cellToggleClick_noop_for_privileged [annAdmin, devDana] devDana "p1" (Or.inr rfl)

/-- C7: the filtered listing contains exactly the users whose lowered name
or username contains the lowered search text and whose role matches the
filter, and it is a sublist of the source listing, so the original order is
preserved with no re-sorting. -/
theorem filteredUsers_characterization (users : List User) (searchTerm : String)
    (filterRole : RoleFilter) :
    (∀ u, u ∈ filteredUsers users searchTerm filterRole ↔
        u ∈ users ∧
          ((jsIncludesLower u.name searchTerm || jsIncludesLower u.username searchTerm)
            && (filterRole == RoleFilter.all || u.role.toFilter == filterRole)) = true) ∧
      (filteredUsers users searchTerm filterRole).Sublist users := by
  constructor
  · intro u
    simp [filteredUsers, List.mem_filter, matchesSearch, matchesRole]
  · exact List.filter_sublist _

/-- C8: a toggle whose user id is absent from the listing is a silent
no-op: the users state, and hence every assigned list, is unchanged. -/
theorem handleToggleAccess_stale_noop (users : List User) (userId pageId : String)
    (h : ∀ u ∈ users, ¬ u.id = userId) :
    handleToggleAccess users userId pageId = users := by
  unfold handleToggleAccess
  have hf : users.find? (fun u => u.id == userId) = none := by
    rw [List.find?_eq_none]
    intro u hu
    simpa using h u hu
  rw [hf]

/-- Witness for C8: toggling an id not present in the listing returns the
listing unchanged. -/
theorem handleToggleAccess_stale_noop_witness :
    handleToggleAccess [plainPat] "zz" "p1" = [plainPat] :=
  handleToggleAccess_stale_noop [plainPat] "zz" "p1" (by decide)

/-- Canvas components of the live editor (live-page-editor.tsx, lines 30
to 41).  Numeric fields are JS numbers, embedded as rationals; the style
bag is an association list; the type tag is kept as the raw string because
addComponent casts an arbitrary string into the union type. -/
structure PageComponent where
  id : String
  type : String
  x : ℚ
  y : ℚ
  width : ℚ
  height : ℚ
  content : String
  style : List (String × String)
  embedUrl : Option String
  htmlContent : Option String
deriving DecidableEq, Repr

/-- A partial record of component fields, the TS Partial of PageComponent:
a field that is present replaces the corresponding field on merge. -/
structure ComponentUpdates where
  id : Option String := none
  type : Option String := none
  x : Option ℚ := none
  y : Option ℚ := none
  width : Option ℚ := none
  height : Option ℚ := none
  content : Option String := none
  style : Option (List (String × String)) := none
  embedUrl : Option String := none
  htmlContent : Option String := none
deriving DecidableEq, Repr

/-- The JS object spread of a partial record over a component. -/
def applyUpdates (c : PageComponent) (u : ComponentUpdates) : PageComponent :=
  { id := u.id.getD c.id
  , type := u.type.getD c.type
  , x := u.x.getD c.x
  , y := u.y.getD c.y
  , width := u.width.getD c.width
  , height := u.height.getD c.height
  , content := u.content.getD c.content
  , style := u.style.getD c.style
  , embedUrl := match u.embedUrl with | some v => some v | none => c.embedUrl
  , htmlContent := match u.htmlContent with | some v => some v | none => c.htmlContent }

/-- Embedding of updateComponent (live-page-editor.tsx, lines 182 to 188)
on the components list: merge the partial record into every component whose
id matches, keep every other component. -/
def updateComponent (comps : List PageComponent) (id : String) (u : ComponentUpdates) :
    List PageComponent :=
  comps.map (fun c => if c.id == id then applyUpdates c u else c)

/-- The type-dependent default background color of addComponent (lines 161
to 167). -/
def defaultBg (ty : String) : String :=
  if ty == "powerbi" then "#0078d4"
  else if ty == "spreadsheet" then "#107c41"
  else if ty == "html" then "#6b46c1"
  else if ty == "image" then "#f59e0b"
  else if ty == "button" then "#3b82f6"
  else "#6b7280"

/-- Embedding of the JS expression type.charAt(0).toUpperCase() plus
type.slice(1) building the content label. -/
def jsCapitalize (s : String) : String :=
  match s.data with
  | [] => ""
  | c :: cs => String.mk (c.toUpper :: cs)

/-- The component literal built by addComponent (lines 150 to 173).  The
id is the decimal string of the clock value Date.now(); the random draws
rx and ry stand for the two Math.random() calls. -/
def mkNewComponent (now : Nat) (rx ry : ℚ) (ty : String) : PageComponent :=
  { id := toString now
  , type := ty
  , x := rx * 300 + 50
  , y := ry * 200 + 50
  , width := if ty == "button" then 120 else if ty == "text" then 200 else 300
  , height := if ty == "button" then 40 else if ty == "text" then 60 else 200
  , content := jsCapitalize ty ++ " Component"
  , style :=
      [("backgroundColor", defaultBg ty), ("color", "white"), ("borderRadius", "12px"),
       ("padding", "16px"), ("border", "1px solid #e5e7eb")]
  , embedUrl := none
  , htmlContent := none }

/-- Embedding of addComponent (live-page-editor.tsx, line 175) on the
components list: append the new component at the end. -/
def addComponent (now : Nat) (rx ry : ℚ) (ty : String) (comps : List PageComponent) :
    List PageComponent :=
  comps ++ [mkNewComponent now rx ry ty]

/-- The save indicator states of the editor (line 56). -/
inductive SaveStatus
  | saved
  | saving
  | unsaved
deriving DecidableEq, Repr

/-- The local state touched by deleteComponent: the components list, the
selection, and the save indicator. -/
structure EditorState where
  components : List PageComponent
  selectedComponent : Option String
  saveStatus : SaveStatus
deriving DecidableEq, Repr

/-- Embedding of deleteComponent (live-page-editor.tsx, lines 190 to 198):
filter the component out, clear the selection unconditionally, and mark the
state unsaved. -/
def deleteComponent (st : EditorState) (id : String) : EditorState :=
  { st with
    components := st.components.filter (fun c => c.id != id),
    selectedComponent := none,
    saveStatus := SaveStatus.unsaved }

/-- Demo component whose id collides with a clock value of 5. -/
def clashComp : PageComponent :=
  { id := "5", type := "button", x := 50, y := 50, width := 120, height := 40,
    content := "Button Component", style := [], embedUrl := none, htmlContent := none }

/-- Mapping a list-preserving function over a list is the identity. -/
theorem map_eq_self_of_fixes (f : PageComponent → PageComponent) :
    ∀ l : List PageComponent, (∀ c ∈ l, f c = c) → l.map f = l
  | [], _ => rfl
  | c :: cs, h => by
      simp only [List.map_cons]
      rw [h c (by simp), map_eq_self_of_fixes f cs (fun d hd => h d (by simp [hd]))]

/-- C6 counterexample: an add at clock value 5 produces a component whose
id equals the id of a component already in the list, so the generated id is
not always distinct from every existing id. -/
theorem addComponent_id_clash :
    (mkNewComponent 5 0 0 "button").id = clashComp.id ∧
      (addComponent 5 0 0 "button" [clashComp]).map PageComponent.id = ["5", "5"] :=
  ⟨by decide, by decide⟩

/-- C6 amended: addComponent appends one component with the type-dependent
default size (button 120 by 40, text 200 by 60, every other type 300 by
200); its id is the decimal clock string, distinct from all existing ids
exactly when no existing component already carries that string, as when
every existing component was created at a different clock value. -/
theorem addComponent_fresh (now : Nat) (rx ry : ℚ) (ty : String)
    (comps : List PageComponent)
    (h : ¬ toString now ∈ comps.map PageComponent.id) :
    addComponent now rx ry ty comps = comps ++ [mkNewComponent now rx ry ty] ∧
      ¬ (mkNewComponent now rx ry ty).id ∈ comps.map PageComponent.id ∧
      (mkNewComponent now rx ry ty).width =
        (if ty == "button" then 120 else if ty == "text" then 200 else 300) ∧
      (mkNewComponent now rx ry ty).height =
        (if ty == "button" then 40 else if ty == "text" then 60 else 200) :=
  ⟨rfl, h, rfl, rfl⟩

/-- Witness for C6 amended: adding a button at clock value 7 next to the
demo component appends a fresh component of default button size. -/
theorem addComponent_fresh_witness :
    addComponent 7 0 0 "button" [clashComp] = [clashComp] ++ [mkNewComponent 7 0 0 "button"] ∧
      ¬ (mkNewComponent 7 0 0 "button").id ∈ [clashComp].map PageComponent.id ∧
      (mkNewComponent 7 0 0 "button").width =
        (if "button" == "button" then 120 else if "button" == "text" then 200 else 300) ∧
      (mkNewComponent 7 0 0 "button").height =
        (if "button" == "button" then 40 else if "button" == "text" then 60 else 200) :=
  addComponent_fresh 7 0 0 "button" [clashComp] (by decide)

/-- C9: updateComponent preserves the length and order of the list, leaves
every component whose id differs from the target unchanged, and is the
identity when no component carries the target id. -/
theorem updateComponent_frame (comps : List PageComponent) (id : String)
    (u : ComponentUpdates) :
    (updateComponent comps id u).length = comps.length ∧
      (∀ (i : ℕ) (c : PageComponent),
        comps[i]? = some c → ¬ c.id = id → (updateComponent comps id u)[i]? = some c) ∧
      ((∀ c ∈ comps, ¬ c.id = id) → updateComponent comps id u = comps) := by
  refine ⟨by simp [updateComponent], ?_, ?_⟩
  · intro i c hc hne
    unfold updateComponent
    rw [List.getElem?_map _ comps i, hc]
    simp [hne]
  · intro hall
    unfold updateComponent
    exact map_eq_self_of_fixes _ comps (fun c hc => by simp [hall c hc])

/-- Witness for C9: updating an absent id leaves the demo list unchanged. -/
theorem updateComponent_frame_witness :
    updateComponent [clashComp] "zz" {} = [clashComp] :=
  (updateComponent_frame [clashComp] "zz" {}).2.2 (by decide)

/-- C10: after every deleteComponent call the selection is cleared, whether
or not the deleted id was selected or present at all. -/
theorem deleteComponent_clears_selection (st : EditorState) (id : String) :
    (deleteComponent st id).selectedComponent = none := rfl

/-- State of the auto-save machinery of the live editor: the components
list and save indicator (the dependency pair of the effect at line 137),
the deadline of a scheduled handleAutoSave timer when one is pending, and
whether the latest effect run returned a cleanup, which it does exactly
when it armed the timer. -/
structure AutoSaveState where
  components : List PageComponent
  saveStatus : SaveStatus
  pendingSave : Option Nat
  cleanupArmed : Bool
deriving DecidableEq, Repr

/-- The dependency pair of the auto-save effect (line 137). -/
def effectDeps (s : AutoSaveState) : List PageComponent × SaveStatus :=
  (s.components, s.saveStatus)

/-- The cleanup of the previous effect run (line 135): clearTimeout of the
timer that run created, when it created one. -/
def runCleanup (s : AutoSaveState) : AutoSaveState :=
  if s.cleanupArmed then { s with pendingSave := none, cleanupArmed := false } else s

/-- The body of the auto-save effect (lines 130 to 135): when the list is
nonempty and the status is unsaved, set the status to saving at once,
schedule handleAutoSave 1000 ms ahead and arm the cleanup for that timer;
otherwise do nothing and return no cleanup. -/
def effectBody (now : Nat) (s : AutoSaveState) : AutoSaveState :=
  if 0 < s.components.length ∧ s.saveStatus = SaveStatus.unsaved then
    { s with
      saveStatus := SaveStatus.saving,
      pendingSave := some (now + 1000),
      cleanupArmed := true }
  else
    { s with cleanupArmed := false }

/-- One run of the auto-save effect under React semantics: the cleanup of
the previous run fires first, then the body runs. -/
def effectRun (now : Nat) (s : AutoSaveState) : AutoSaveState :=
  effectBody now (runCleanup s)

/-- One conditional pass of the effect loop: the effect runs exactly when
the dependency pair changed since the last run; the first component is the
dependency pair to compare against on the next pass. -/
def effectPass (now : Nat) (prev : List PageComponent × SaveStatus) (s : AutoSaveState) :
    (List PageComponent × SaveStatus) × AutoSaveState :=
  if effectDeps s = prev then (prev, s) else (effectDeps s, effectRun now s)

/-- The effect loop that follows one event: in this program the dependency
pair settles after at most two effect runs, so three conditional passes
compute the settled state (a settled pass is the identity, so the third
pass also verifies settlement). -/
def runEffects (now : Nat) (prev : List PageComponent × SaveStatus) (s : AutoSaveState) :
    AutoSaveState :=
  let q1 := effectPass now prev s
  let q2 := effectPass now q1.1 q1.2
  let q3 := effectPass now q2.1 q2.2
  q3.2

/-- The editor events that touch the auto-save machinery: the three
mutations, and the firing of a scheduled handleAutoSave timer. -/
inductive EditorEvent
  | addEv (rx ry : ℚ) (ty : String)
  | updateEv (id : String) (u : ComponentUpdates)
  | deleteEv (id : String)
  | timerEv

/-- The synchronous state updates of each handler: every mutation writes
the new list and sets the status to unsaved (lines 175 to 195); a firing
timer runs handleAutoSave, which sets the status to saved (line 143). -/
def applyEvent (t : Nat) (e : EditorEvent) (s : AutoSaveState) : AutoSaveState :=
  match e with
  | .addEv rx ry ty =>
      { s with
        components := addComponent t rx ry ty s.components,
        saveStatus := SaveStatus.unsaved }
  | .updateEv id u =>
      { s with
        components := updateComponent s.components id u,
        saveStatus := SaveStatus.unsaved }
  | .deleteEv id =>
      { s with
        components := s.components.filter (fun c => c.id != id),
        saveStatus := SaveStatus.unsaved }
  | .timerEv =>
      if s.pendingSave = some t then
        { s with
          saveStatus := SaveStatus.saved,
          pendingSave := none }
      else s

/-- Processing of one event at clock value t: the synchronous state
updates run, then the effect loop settles. -/
def step (t : Nat) (e : EditorEvent) (s : AutoSaveState) : AutoSaveState :=
  runEffects t (effectDeps s) (applyEvent t e s)

/-- C5, evaluated at the failing input: from a settled saved state with a
nonempty canvas, a single updateComponent call moves the status to saving
within the same event turn, before any debounce window can elapse, and the
scheduled handleAutoSave timer is already cancelled by the effect cleanup
of the follow-up render, so no pending save remains and the status never
returns to saved. -/
theorem autosave_saving_immediately (t : Nat) (s : AutoSaveState) (id : String)
    (u : ComponentUpdates)
    (hst : s.saveStatus = SaveStatus.saved)
    (hne : s.components ≠ [])
    (hcl : s.cleanupArmed = false) :
    (step t (EditorEvent.updateEv id u) s).saveStatus = SaveStatus.saving ∧
      (step t (EditorEvent.updateEv id u) s).pendingSave = none := by
  obtain ⟨comps, sst, pend, arm⟩ := s
  simp only at hst hne hcl
  subst hst
  subst hcl
  have hlen : 0 < (updateComponent comps id u).length := by
    have hlm : (updateComponent comps id u).length = comps.length := by
      simp [updateComponent]
    rw [hlm]
    exact List.length_pos.mpr hne
  have d1 : ¬ effectDeps
        (⟨updateComponent comps id u, SaveStatus.unsaved, pend, false⟩ : AutoSaveState)
      = (comps, SaveStatus.saved) := by
    intro hq
    have hq2 := congrArg Prod.snd hq
    simp [effectDeps] at hq2
  have p1 : effectPass t (comps, SaveStatus.saved)
        ⟨updateComponent comps id u, SaveStatus.unsaved, pend, false⟩
      = ((updateComponent comps id u, SaveStatus.unsaved),
         ⟨updateComponent comps id u, SaveStatus.saving, some (t + 1000), true⟩) := by
    unfold effectPass
    rw [if_neg d1]
    have hr : effectRun t
          (⟨updateComponent comps id u, SaveStatus.unsaved, pend, false⟩ : AutoSaveState)
        = ⟨updateComponent comps id u, SaveStatus.saving, some (t + 1000), true⟩ := by
      show effectBody t
          (runCleanup ⟨updateComponent comps id u, SaveStatus.unsaved, pend, false⟩) = _
      rw [show runCleanup
            (⟨updateComponent comps id u, SaveStatus.unsaved, pend, false⟩ : AutoSaveState)
          = ⟨updateComponent comps id u, SaveStatus.unsaved, pend, false⟩ from rfl]
      unfold effectBody
      rw [if_pos ⟨hlen, rfl⟩]
    rw [hr]
    rfl
  have d2 : ¬ effectDeps
        (⟨updateComponent comps id u, SaveStatus.saving, some (t + 1000), true⟩ : AutoSaveState)
      = (updateComponent comps id u, SaveStatus.unsaved) := by
    intro hq
    have hq2 := congrArg Prod.snd hq
    simp [effectDeps] at hq2
  have p2 : effectPass t (updateComponent comps id u, SaveStatus.unsaved)
        ⟨updateComponent comps id u, SaveStatus.saving, some (t + 1000), true⟩
      = ((updateComponent comps id u, SaveStatus.saving),
         ⟨updateComponent comps id u, SaveStatus.saving, none, false⟩) := by
    unfold effectPass
    rw [if_neg d2]
    have hr : effectRun t
          (⟨updateComponent comps id u, SaveStatus.saving, some (t + 1000), true⟩ : AutoSaveState)
        = ⟨updateComponent comps id u, SaveStatus.saving, none, false⟩ := by
      show effectBody t
          (runCleanup ⟨updateComponent comps id u, SaveStatus.saving, some (t + 1000), true⟩) = _
      rw [show runCleanup
            (⟨updateComponent comps id u, SaveStatus.saving, some (t + 1000), true⟩ : AutoSaveState)
          = ⟨updateComponent comps id u, SaveStatus.saving, none, false⟩ from rfl]
      unfold effectBody
      rw [if_neg (fun hq => SaveStatus.noConfusion hq.2)]
    rw [hr]
    rfl
  have p3 : effectPass t (updateComponent comps id u, SaveStatus.saving)
        ⟨updateComponent comps id u, SaveStatus.saving, none, false⟩
      = ((updateComponent comps id u, SaveStatus.saving),
         ⟨updateComponent comps id u, SaveStatus.saving, none, false⟩) := by
    unfold effectPass
    rw [if_pos (show effectDeps
        (⟨updateComponent comps id u, SaveStatus.saving, none, false⟩ : AutoSaveState)
      = (updateComponent comps id u, SaveStatus.saving) from rfl)]
  have hstep : step t (EditorEvent.updateEv id u) ⟨comps, SaveStatus.saved, pend, false⟩
      = ⟨updateComponent comps id u, SaveStatus.saving, none, false⟩ := by
    show runEffects t (comps, SaveStatus.saved)
        ⟨updateComponent comps id u, SaveStatus.unsaved, pend, false⟩ = _
    unfold runEffects
    rw [p1]
    dsimp only
    rw [p2]
    dsimp only
    rw [p3]
  rw [hstep]
  exact ⟨rfl, rfl⟩

/-- Witness for C5 at a concrete failing input: a saved canvas holding the
demo component; one update at clock value 0 leaves the status saving with
no pending save. -/
theorem autosave_saving_immediately_witness :
    (step 0 (EditorEvent.updateEv "5" {})
        ⟨[clashComp], SaveStatus.saved, none, false⟩).saveStatus = SaveStatus.saving ∧
      (step 0 (EditorEvent.updateEv "5" {})
        ⟨[clashComp], SaveStatus.saved, none, false⟩).pendingSave = none :=
  autosave_saving_immediately 0 ⟨[clashComp], SaveStatus.saved, none, false⟩ "5" {}
    rfl (List.cons_ne_nil _ _) rfl
